import Mathlib

/-!
Verification development for the loolwsd master-session router
(`MasterProcessSession.cpp`) and the worker kit (`LOOLKit.cpp`).
The definitions below are a shallow embedding of those two source files;
helpers that live in files outside the scrutinized sources
(`LOOLProtocol.cpp`, `TileCache.cpp`, …) are modelled from the
specification and marked as such in their doc comments.
-/

namespace LOOLProtocol

/-- ASCII whitespace, as trimmed by `Poco::StringTokenizer` with `TOK_TRIM`. -/
def isWS (c : Char) : Bool :=
  c = ' ' || c = '\t' || c = '\n' || c = '\r'

/-- Split a character list on a separator character, keeping empty groups. -/
def splitOnChar (sep : Char) : List Char → List (List Char)
  | [] => [[]]
  | c :: rest =>
    match splitOnChar sep rest with
    | [] => [[c]]
    | g :: gs => if c = sep then [] :: g :: gs else (c :: g) :: gs

/-- Trim ASCII whitespace from both ends of a character list. -/
def trimChars (cs : List Char) : List Char :=
  ((cs.dropWhile isWS).reverse.dropWhile isWS).reverse

/-- Return the message text up to (not including) the first newline, or the
whole message when it has none, as `LOOLProtocol::getFirstLine` does. -/
def getFirstLine (msg : String) : String :=
  ⟨msg.data.takeWhile (fun c => c ≠ '\n')⟩

/-- Split a line on a separator, trim every token and drop the empty ones:
the behaviour of `Poco::StringTokenizer` with the flags
`TOK_IGNORE_EMPTY` and `TOK_TRIM` used throughout the sources. -/
def tokenizeOn (sep : Char) (line : String) : List String :=
  (((splitOnChar sep line.data).map (fun g => trimChars g)).filter
    (fun g => !(decide (g = [])))).map (fun g => ⟨g⟩)

/-- Whitespace tokenization of a command line. -/
def tokenize (line : String) : List String :=
  tokenizeOn ' ' line

/-- Comma tokenization, used for the `tileposx`/`tileposy` lists of
`tilecombine`. -/
def tokenizeComma (s : String) : List String :=
  tokenizeOn ',' s

/-- Parse a run of decimal digits with an accumulator. -/
def natOfDigitsGo : List Char → Nat → Option Nat
  | [], acc => some acc
  | c :: rest, acc =>
    if '0' ≤ c ∧ c ≤ '9' then natOfDigitsGo rest (acc * 10 + (c.toNat - '0'.toNat))
    else none

/-- Parse a non-empty run of decimal digits. -/
def natOfDigits (cs : List Char) : Option Nat :=
  if cs.isEmpty then none else natOfDigitsGo cs 0

/-- Parse an optionally signed decimal integer consuming the whole input. -/
def intOfChars : List Char → Option Int
  | '-' :: rest => (natOfDigits rest).map (fun n => -(n : Int))
  | '+' :: rest => (natOfDigits rest).map (fun n => (n : Int))
  | cs => (natOfDigits cs).map (fun n => (n : Int))

/-- Modelled from the spec: `stringToInteger` requires the whole token to
parse as a decimal integer (the helper itself lives in `LOOLProtocol.cpp`,
outside the scrutinized sources). -/
def stringToInteger (s : String) : Option Int :=
  intOfChars s.data

/-- Drop the first `n` characters of a string. -/
def strDrop (s : String) (n : Nat) : String :=
  ⟨s.data.drop n⟩

/-- Does `s` start with `pre`? -/
def strStarts (s pre : String) : Bool :=
  pre.data.isPrefixOf s.data

/-- Modelled from the spec: `getTokenString(tok, name)` succeeds exactly when
`tok` is `name=value`, yielding `value`. -/
def getTokenString (tok name : String) : Option String :=
  if strStarts tok (name ++ "=") then some (strDrop tok (name.length + 1)) else none

/-- Modelled from the spec: `getTokenInteger(tok, name)` is `getTokenString`
followed by integer parsing of the value. -/
def getTokenInteger (tok name : String) : Option Int :=
  (getTokenString tok name).bind stringToInteger

/-- Modelled from the spec: `ParseVersion` parses `major.minor.patch`; an
unparseable version yields a tuple matching no real protocol version. -/
def parseVer (s : String) : Int × Int × Int :=
  match (splitOnChar '.' s.data).map (fun g => intOfChars g) with
  | [some a, some b, some c] => (a, b, c)
  | _ => (-1, -1, -1)

/-- Join tokens with single spaces, as `Poco::cat(" ", begin, end)`. -/
def catSpace (l : List String) : String :=
  String.intercalate " " l

end LOOLProtocol

open LOOLProtocol

/-- The 7-tuple under which rendered tiles are cached. -/
structure TileKey where
  part : Int
  width : Int
  height : Int
  tilePosX : Int
  tilePosY : Int
  tileWidth : Int
  tileHeight : Int
deriving DecidableEq, Repr

/-- Modelled from the spec: the per-document artifact cache
(`TileCache.cpp` is outside the scrutinized sources).  Tiles are keyed by
the 7-tuple, text artifacts by file name, font renderings by
`(font, kind)`; `saveTile`/`saveTextFile` overwrite. -/
structure TileCache where
  docURL : String
  tiles : List (TileKey × List Nat)
  textFiles : List (String × String)
  renderings : List ((String × String) × List Nat)
  editing : Bool
  saved : Bool
deriving DecidableEq, Repr

namespace TileCache

/-- Modelled from the spec: a fresh cache created on `load`. -/
def create (url : String) : TileCache :=
  { docURL := url, tiles := [], textFiles := [], renderings := [],
    editing := false, saved := false }

/-- Modelled from the spec: `saveTile` stores/overwrites the blob under its
7-tuple key. -/
def saveTile (tc : TileCache) (k : TileKey) (bytes : List Nat) : TileCache :=
  { tc with tiles := (k, bytes) :: tc.tiles.filter (fun p => !(decide (p.1 = k))) }

/-- Modelled from the spec: `lookupTile` returns the blob stored under the
key, or a miss. -/
def lookupTile (tc : TileCache) (k : TileKey) : Option (List Nat) :=
  (tc.tiles.find? (fun p => decide (p.1 = k))).map (fun p => p.2)

/-- Modelled from the spec: `saveTextFile` stores/overwrites a named text
artifact. -/
def saveTextFile (tc : TileCache) (contents name : String) : TileCache :=
  { tc with textFiles := (name, contents) :: tc.textFiles.filter (fun p => !(decide (p.1 = name))) }

/-- Modelled from the spec: `getTextFile` returns the stored text, or the
empty string when the artifact is absent. -/
def getTextFile (tc : TileCache) (name : String) : String :=
  ((tc.textFiles.find? (fun p => decide (p.1 = name))).map (fun p => p.2)).getD ""

/-- Modelled from the spec: `saveRendering` stores a font rendering under
`(font, kind)`. -/
def saveRendering (tc : TileCache) (font kind : String) (bytes : List Nat) : TileCache :=
  { tc with renderings :=
      ((font, kind), bytes) :: tc.renderings.filter (fun p => !(decide (p.1 = (font, kind)))) }

/-- Modelled from the spec: `lookupRendering`. -/
def lookupRendering (tc : TileCache) (font kind : String) : Option (List Nat) :=
  (tc.renderings.find? (fun p => decide (p.1 = (font, kind)))).map (fun p => p.2)

/-- Modelled from the spec: the monotone `isEditing` flag. -/
def setEditing (tc : TileCache) (b : Bool) : TileCache :=
  { tc with editing := b }

/-- Modelled from the spec: inclusive intersection of a stored tile with an
invalidation rectangle of the same part. -/
def keyIntersects (k : TileKey) (part x y w h : Int) : Bool :=
  decide (k.part = part) &&
  decide (k.tilePosX ≤ x + w) && decide (x ≤ k.tilePosX + k.tileWidth) &&
  decide (k.tilePosY ≤ y + h) && decide (y ≤ k.tilePosY + k.tileHeight)

/-- Modelled from the spec: drop every tile of `part` whose rectangle
intersects `(x, y, w, h)`, edges inclusive. -/
def invalidateTiles (tc : TileCache) (part x y w h : Int) : TileCache :=
  { tc with tiles := tc.tiles.filter (fun p => !(keyIntersects p.1 part x y w h)) }

/-- Modelled from the spec: the raw form of invalidation accepts the
engine's textual message: an `EMPTY` sentinel drops all tiles, a rectangle
drops the intersecting tiles of every part. -/
def invalidateTilesRaw (tc : TileCache) (msg : String) : TileCache :=
  match tokenize msg with
  | [_, e] =>
    if e = "EMPTY" then { tc with tiles := [] } else tc
  | [_, sx, sy, sw, sh] =>
    match stringToInteger sx, stringToInteger sy, stringToInteger sw, stringToInteger sh with
    | some x, some y, some w, some h =>
      { tc with tiles := tc.tiles.filter (fun p =>
          !(decide (p.1.tilePosX ≤ x + w) && decide (x ≤ p.1.tilePosX + p.1.tileWidth) &&
            decide (p.1.tilePosY ≤ y + h) && decide (y ≤ p.1.tilePosY + p.1.tileHeight))) }
    | _, _, _, _ => tc
  | _ => tc

/-- Modelled from the spec: `documentSaved` sets the saved flag and clears
every cached text artifact other than `status`. -/
def documentSaved (tc : TileCache) : TileCache :=
  { tc with saved := true,
            textFiles := tc.textFiles.filter (fun p => decide (p.1 = "status.txt")) }

end TileCache

/-- Observable actions a master session performs while handling one frame. -/
inductive Output where
  | sendText (msg : String)
  | sendBinaryMsg (header : String) (bytes : List Nat)
  | forward (line : String) (tail : Option (List Nat))
  | brokerWrite (msg : String)
  | shutdownWS
  | saveAsPut (url : String)
  | availableInsert (sid : String)
  | notifyAvailable
  | dispatchChildCall
  | disconnectPeer (reason : String)
deriving DecidableEq, Repr

/-- A WebSocket frame as the router sees it: the first line and, when the
payload has a newline, the binary tail following it. -/
structure Frame where
  line : String
  tail : Option (List Nat)
deriving DecidableEq, Repr

/-- The kind of a master-process session. -/
inductive SKind where
  | toClient
  | toPrisoner
deriving DecidableEq, Repr

/-- The per-session state of `MasterProcessSession`. -/
structure MSession where
  kind : SKind
  sid : String
  docURL : String
  childId : String
  pidChild : Int
  curPart : Int
  loadPart : Int
  docOptions : String
  tileCache : Option TileCache
deriving DecidableEq, Repr

namespace MasterProcessSession

/-- Parse the seven integer tokens of a `tile`/`tile:` message into the
cache key, in the order the source checks them. -/
def parseTileKey (t1 t2 t3 t4 t5 t6 t7 : String) : Option TileKey := do
  let part ← getTokenInteger t1 "part"
  let width ← getTokenInteger t2 "width"
  let height ← getTokenInteger t3 "height"
  let tilePosX ← getTokenInteger t4 "tileposx"
  let tilePosY ← getTokenInteger t5 "tileposy"
  let tileWidth ← getTokenInteger t6 "tilewidth"
  let tileHeight ← getTokenInteger t7 "tileheight"
  pure ⟨part, width, height, tilePosX, tilePosY, tileWidth, tileHeight⟩

/-- The bounds check of `sendTile`: `part`, `tilePosX`, `tilePosY` must be
non-negative and the four sizes positive. -/
def tileKeyValid (k : TileKey) : Bool :=
  !(decide (k.part < 0) || decide (k.width ≤ 0) || decide (k.height ≤ 0) ||
    decide (k.tilePosX < 0) || decide (k.tilePosY < 0) ||
    decide (k.tileWidth ≤ 0) || decide (k.tileHeight ≤ 0))

/-- `MasterProcessSession::sendTile`: parse and validate the 7-tuple, then
serve the tile from the cache when present (text header plus cached bytes
in one binary frame) and otherwise forward the request to the peer,
dispatching a child first when the peer is gone. -/
def sendTile (cache : TileCache) (peerGone : Bool) (tokens : List String)
    (fr : Frame) : List Output :=
  match tokens with
  | _ :: t1 :: t2 :: t3 :: t4 :: t5 :: t6 :: t7 :: rest =>
    match parseTileKey t1 t2 t3 t4 t5 t6 t7 with
    | none => [Output.sendText "error: cmd=tile kind=syntax"]
    | some k =>
      if tileKeyValid k = false then
        [Output.sendText "error: cmd=tile kind=invalid"]
      else
        match cache.lookupTile k with
        | some bytes =>
          [Output.sendBinaryMsg ("tile: " ++ catSpace (t1 :: t2 :: t3 :: t4 :: t5 :: t6 :: t7 :: rest) ++ "\n") bytes]
        | none =>
          (if peerGone then [Output.dispatchChildCall] else []) ++
          [Output.forward fr.line fr.tail]
  | _ => [Output.sendText "error: cmd=tile kind=syntax"]

end MasterProcessSession

namespace MasterProcessSession

/-- Modelled from the spec: the protocol major version number from `Common.hpp`. -/
def protocolMajor : Int := 0

/-- Modelled from the spec: the protocol minor version number from `Common.hpp`. -/
def protocolMinor : Int := 1

/-- Modelled from the spec: the server's full protocol version string. -/
def protocolVersionStr : String := "0.1.0"

/-- The 27-entry command allow-list of `_handleInput` (the chain of
inequalities at the `unknown` check). -/
def allowList : List String :=
  ["canceltiles", "clientzoom", "clientvisiblearea", "commandvalues", "disconnect",
   "downloadas", "getchildid", "gettextselection", "paste", "insertfile",
   "invalidatetiles", "key", "mouse", "partpagerectangles", "renderfont",
   "requestloksession", "resetselection", "saveas", "selectgraphic", "selecttext",
   "setclientpart", "setpage", "status", "tile", "tilecombine", "unload", "uno"]

/-- Result of handling one frame: the updated session, the updated peer
session, the observable outputs in order, and the boolean the handler
returns. -/
structure HRes where
  self : MSession
  peer : Option MSession
  outs : List Output
  ret : Bool
deriving DecidableEq, Repr

/-- The result of the per-position loop of `sendCombinedTiles`. -/
inductive CombineLoopRes where
  | oor (sent : List Output)
  | err (sent : List Output)
  | done (sent : List Output) (fx fy : String)
deriving DecidableEq, Repr

/-- The accumulation step the source uses on `forwardTileX`/`forwardTileY`:
append a comma first unless the accumulator is still empty. -/
def appendCSV (acc x : String) : String :=
  (if acc.isEmpty then acc else acc ++ ",") ++ x

/-- The `tile:` response header `sendCombinedTiles` builds for a cache hit. -/
def combineTileHeader (part w h x y tw th : Int) : String :=
  "tile: part=" ++ toString part ++ " width=" ++ toString w ++
  " height=" ++ toString h ++ " tileposx=" ++ toString x ++
  " tileposy=" ++ toString y ++ " tilewidth=" ++ toString tw ++
  " tileheight=" ++ toString th ++ "\n"

/-- The reduced `tilecombine` message forwarded to the worker. -/
def combineFwdMsg (part w h : Int) (fx fy : String) (tw th : Int) : String :=
  "tilecombine part=" ++ toString part ++ " width=" ++ toString w ++
  " height=" ++ toString h ++ " tileposx=" ++ fx ++ " tileposy=" ++ fy ++
  " tilewidth=" ++ toString tw ++ " tileheight=" ++ toString th

/-- The guard of `sendCombinedTiles` exactly as the source writes it:
`numberOfPositions` is initialized from the tileposy token count and then
compared against the tileposy token count again. -/
def combineGuardFails (positionYtokens : List String) : Bool :=
  decide (positionYtokens.length ≠ positionYtokens.length)

/-- The per-position loop of `sendCombinedTiles`: the index `i` ranges over
the tileposy token count, and `positionXtokens[i]` is read without a bound
check.  Walking the two token lists in step is index-for-index what the
source loop does, with the X list allowed to run short: reading past its
end is the out-of-range case (`oor`).  Each parsed pair is looked up in
the cache; hits are served, misses accumulate onto the forward lists. -/
def combineLoop (cache : TileCache) (part w h tw th : Int) :
    List String → List String → List Output → String → String → CombineLoopRes
  | _, [], sent, fx, fy => .done sent fx fy
  | [], _ :: _, sent, _, _ => .oor sent
  | xt :: xrest, yt :: yrest, sent, fx, fy =>
    match stringToInteger xt with
    | none => .err (sent ++ [Output.sendText "error: cmd=tilecombine kind=syntax"])
    | some x =>
      match stringToInteger yt with
      | none => .err (sent ++ [Output.sendText "error: cmd=tilecombine kind=syntax"])
      | some y =>
        match cache.lookupTile ⟨part, w, h, x, y, tw, th⟩ with
        | some bytes =>
          combineLoop cache part w h tw th xrest yrest
            (sent ++ [Output.sendBinaryMsg (combineTileHeader part w h x y tw th) bytes]) fx fy
        | none =>
          combineLoop cache part w h tw th xrest yrest sent
            (appendCSV fx (toString x)) (appendCSV fy (toString y))

/-- `MasterProcessSession::sendCombinedTiles`: parse and validate the
request, split the position lists, run the per-position loop, and forward
a reduced `tilecombine` exactly when some position missed.  `none` models
the unguarded out-of-range read of the tileposx token list. -/
def sendCombinedTiles (cache : TileCache) (peerGone : Bool)
    (tokens : List String) : Option (List Output) :=
  match tokens with
  | _ :: t1 :: t2 :: t3 :: t4 :: t5 :: t6 :: t7 :: _ =>
    match getTokenInteger t1 "part", getTokenInteger t2 "width",
          getTokenInteger t3 "height", getTokenString t4 "tileposx",
          getTokenString t5 "tileposy", getTokenInteger t6 "tilewidth",
          getTokenInteger t7 "tileheight" with
    | some part, some w, some h, some xsStr, some ysStr, some tw, some th =>
      if part < 0 ∨ w ≤ 0 ∨ h ≤ 0 ∨ tw ≤ 0 ∨ th ≤ 0 ∨ xsStr.isEmpty ∨ ysStr.isEmpty then
        some [Output.sendText "error: cmd=tilecombine kind=invalid"]
      else
        let positionXtokens := tokenizeComma xsStr
        let positionYtokens := tokenizeComma ysStr
        if combineGuardFails positionYtokens then
          some [Output.sendText "error: cmd=tilecombine kind=invalid"]
        else
          match combineLoop cache part w h tw th positionXtokens positionYtokens [] "" "" with
          | .oor _ => none
          | .err sent => some sent
          | .done sent fx fy =>
            if fx.isEmpty && fy.isEmpty then some sent
            else
              some (sent ++ (if peerGone then [Output.dispatchChildCall] else []) ++
                    [Output.forward (combineFwdMsg part w h fx fy tw th) none])
    | _, _, _, _, _, _, _ => some [Output.sendText "error: cmd=tilecombine kind=syntax"]
  | _ => some [Output.sendText "error: cmd=tilecombine kind=syntax"]

/-- `MasterProcessSession::getStatus`: serve `status.txt` from the cache
when non-empty, else dispatch a child if the peer is gone and forward. -/
def getStatus (cache : TileCache) (peerGone : Bool) (fr : Frame) :
    List Output × Bool :=
  let status := cache.getTextFile "status.txt"
  if status.isEmpty = false then ([Output.sendText status], true)
  else ((if peerGone then [Output.dispatchChildCall] else []) ++
        [Output.forward fr.line fr.tail], true)

/-- `MasterProcessSession::getCommandValues`: serve `cmdValues<C>.txt` when
cached, else forward; malformed requests get a syntax error. -/
def getCommandValues (cache : TileCache) (peerGone : Bool)
    (tokens : List String) (fr : Frame) : List Output × Bool :=
  match tokens with
  | [_, t1] =>
    match getTokenString t1 "command" with
    | some command =>
      let cmdValues := cache.getTextFile ("cmdValues" ++ command ++ ".txt")
      if cmdValues.isEmpty = false then ([Output.sendText cmdValues], true)
      else ((if peerGone then [Output.dispatchChildCall] else []) ++
            [Output.forward fr.line fr.tail], true)
    | none => ([Output.sendText "error: cmd=commandvalues kind=syntax"], false)
  | _ => ([Output.sendText "error: cmd=commandvalues kind=syntax"], false)

/-- `MasterProcessSession::getPartPageRectangles`. -/
def getPartPageRectangles (cache : TileCache) (peerGone : Bool) (fr : Frame) :
    List Output × Bool :=
  let t := cache.getTextFile "partpagerectangles.txt"
  if t.isEmpty = false then ([Output.sendText t], true)
  else ((if peerGone then [Output.dispatchChildCall] else []) ++
        [Output.forward fr.line fr.tail], true)

/-- Result of the client-side `invalidateTiles` command: the outputs, the
argument tuple actually passed to the cache invalidation (note the source
passes `_curPart`, not the part parsed from the message), the updated
cache and the returned boolean. -/
structure InvRes where
  outs : List Output
  call : Option (Int × Int × Int × Int × Int)
  cache : TileCache
  ret : Bool
deriving DecidableEq, Repr

/-- `MasterProcessSession::invalidateTiles` (the client command): parse the
five integers, then mark editing and invalidate `(curPart, x, y, w, h)` in
the cache — the parsed `part` token is ignored in favour of `_curPart`. -/
def invalidateTilesCmd (cache : TileCache) (curPart : Int)
    (tokens : List String) : InvRes :=
  match tokens with
  | [_, t1, t2, t3, t4, t5] =>
    match getTokenInteger t1 "part", getTokenInteger t2 "tileposx",
          getTokenInteger t3 "tileposy", getTokenInteger t4 "tilewidth",
          getTokenInteger t5 "tileheight" with
    | some _, some x, some y, some w, some h =>
      { outs := [], call := some (curPart, x, y, w, h),
        cache := (cache.setEditing true).invalidateTiles curPart x y w h, ret := true }
    | _, _, _, _, _ =>
      { outs := [Output.sendText "error: cmd=invalidatetiles kind=syntax"],
        call := none, cache := cache, ret := false }
  | _ =>
    { outs := [Output.sendText "error: cmd=invalidatetiles kind=syntax"],
      call := none, cache := cache, ret := false }

/-- `MasterProcessSession::sendFontRendering`: serve the cached font
rendering as one binary frame, else forward. -/
def sendFontRendering (cache : TileCache) (peerGone : Bool)
    (tokens : List String) (fr : Frame) : List Output :=
  match tokens with
  | _ :: t1 :: rest =>
    match getTokenString t1 "font" with
    | some font =>
      (match cache.lookupRendering font "font" with
       | some bytes =>
         [Output.sendBinaryMsg ("renderfont: " ++ catSpace (t1 :: rest) ++ "\n") bytes]
       | none =>
         (if peerGone then [Output.dispatchChildCall] else []) ++
         [Output.forward fr.line fr.tail])
    | none => [Output.sendText "error: cmd=renderfont kind=syntax"]
  | _ => [Output.sendText "error: cmd=renderfont kind=syntax"]

/-- Modelled from the spec: `parseDocOptions` (in `LOOLSession.cpp`,
outside the scrutinized sources) extracts the document URL, an optional
`part=` and options from the `load` tokens. -/
def parseDocOpts (tokens : List String) : String × Int × String :=
  let url := match tokens.get? 1 with
    | some t => match getTokenString t "url" with | some u => u | none => t
    | none => ""
  let part := ((tokens.filterMap (fun t => getTokenInteger t "part")).head?).getD (-1)
  let opts := ((tokens.filterMap (fun t => getTokenString t "options")).head?).getD ""
  (url, part, opts)

/-- Modelled from the spec: Poco URI construction raises `SyntaxException`
(reported as `uriinvalid`) on an unparseable URL; modelled as rejecting
empty or space-containing URLs. -/
def validURI (url : String) : Bool :=
  !(decide (url.data = [])) && !(url.data.contains ' ')

/-- `MasterProcessSession::loadDocument`: record the document options and
URL, write the broker `request` line, create the tile cache and dispatch a
child. -/
def loadDocument (s : MSession) (peer : Option MSession)
    (tokens : List String) : HRes :=
  if tokens.length < 2 then
    ⟨s, peer, [Output.sendText "error: cmd=load kind=syntax"], false⟩
  else
    let parsed := parseDocOpts tokens
    let s1 := { s with docURL := parsed.1, loadPart := parsed.2.1, docOptions := parsed.2.2 }
    if validURI parsed.1 = false then
      ⟨s1, peer, [Output.sendText "error: cmd=load kind=uriinvalid"], false⟩
    else
      ⟨{ s1 with tileCache := some (TileCache.create parsed.1) }, peer,
       [Output.brokerWrite ("request " ++ s.sid ++ " " ++ parsed.1 ++ "\r\n"),
        Output.dispatchChildCall], true⟩

/-- Substring search on character lists. -/
def subChars (n : List Char) : List Char → Bool
  | [] => n.isEmpty
  | c :: t => n.isPrefixOf (c :: t) || subChars n t

/-- Modelled from the spec: substring containment, standing in for
`std::string::find != npos`. -/
def containsSub (h n : String) : Bool :=
  subChars n.data h.data

/-- Modelled from the spec: the `commandvalues:` snoop parses the JSON
payload with Poco and reads its `commandName`; the extraction is
abstracted to a containment test for the two command names the source
caches. -/
def extractCachedCmdName (msg : String) : Option String :=
  if containsSub msg ".uno:CharFontName" then some ".uno:CharFontName"
  else if containsSub msg ".uno:StyleApply" then some ".uno:StyleApply"
  else none

/-- Modelled from the spec: the `saveas:` snoop re-roots `file:///` URLs
under the jail directory of the child. -/
def rewriteSaveAsUrl (childId url : String) : String :=
  if strStarts url "file:///" then
    "file:///childroot/" ++ childId ++ "/" ++ strDrop url 8
  else url

/-- The `curpart:`/`saveas:` snoops of `_handleInput` on a `ToPrisoner`
session (lines 127-159): both consume the frame without forwarding;
`curpart:` stores the part into the receiving session's own `_curPart`,
`saveas:` enqueues the rewritten URL on the peer's save-as queue.
Returns `none` when the frame is not consumed here. -/
def curpartSaveas (s : MSession) (peer : Option MSession)
    (tokens : List String) : Option HRes :=
  if s.kind = SKind.toPrisoner then
    match tokens with
    | [c, t1] =>
      if c = "curpart:" then
        match getTokenInteger t1 "part" with
        | some n => some ⟨{ s with curPart := n }, peer, [], true⟩
        | none => none
      else if c = "saveas:" then
        match getTokenString t1 "url" with
        | none => some ⟨s, peer, [], true⟩
        | some url =>
          match peer with
          | some _ => some ⟨s, peer, [Output.saveAsPut (rewriteSaveAsUrl s.childId url)], true⟩
          | none => some ⟨s, peer, [], true⟩
      else none
    | _ => none
  else none

/-- The cache snoop of `_handleInput` on a `ToPrisoner` session with a
peer that owns a tile cache (lines 161-230): returns the updated peer
cache, or `none` for the assertion failures of the source. -/
def prisonerSnoop (cache : TileCache) (tokens : List String) (fr : Frame) :
    Option TileCache :=
  match tokens with
  | [] => some cache
  | t0 :: rest =>
    if t0 = "tile:" then
      match rest with
      | t1 :: t2 :: t3 :: t4 :: t5 :: t6 :: t7 :: _ =>
        match parseTileKey t1 t2 t3 t4 t5 t6 t7 with
        | some k =>
          match fr.tail with
          | some bytes => some (cache.saveTile k bytes)
          | none => none
        | none => none
      | _ => none
    else if t0 = "status:" then
      some (cache.saveTextFile fr.line "status.txt")
    else if t0 = "commandvalues:" then
      match extractCachedCmdName fr.line with
      | some name => some (cache.saveTextFile fr.line ("cmdValues" ++ name ++ ".txt"))
      | none => some cache
    else if t0 = "partpagerectangles:" then
      match rest with
      | t1 :: _ =>
        if t1.isEmpty = false then some (cache.saveTextFile fr.line "partpagerectangles.txt")
        else some cache
      | [] => some cache
    else if t0 = "invalidatecursor:" then
      some (cache.setEditing true)
    else if t0 = "invalidatetiles:" then
      match fr.tail with
      | none => some ((cache.setEditing true).invalidateTilesRaw fr.line)
      | some _ => none
    else if t0 = "renderfont:" then
      match rest with
      | t1 :: _ =>
        match getTokenString t1 "font" with
        | some font =>
          match fr.tail with
          | some bytes => some (cache.saveRendering font "font" bytes)
          | none => none
        | none => none
      | [] => none
    else some cache

/-- `MasterProcessSession::_handleInput`, one frame: the version handshake,
the snoop-and-forward path of a paired worker-side session, the `child`
handshake, `load`, the allow-list classification, and the per-command
dispatch.  `none` models an unguarded out-of-range token access or a
failed assertion.  Forwarding to the peer in the post-dispatch command
branches is recorded as an output even when the peer had expired, since
`dispatchChild` (modelled by the `dispatchChildCall` marker) pairs one
first. -/
def handleInput (s : MSession) (peer : Option MSession) (fr : Frame) :
    Option HRes := do
  let tokens := tokenize fr.line
  let t0 ← tokens.get? 0
  if t0 = "loolclient" then
    let t1 ← tokens.get? 1
    let v := parseVer t1
    if v.1 ≠ protocolMajor ∨ v.2.1 ≠ protocolMinor then
      some ⟨s, peer, [Output.sendText "error: cmd=loolclient kind=badversion"], false⟩
    else
      some ⟨s, peer, [Output.sendText ("loolserver " ++ protocolVersionStr)], true⟩
  else if s.childId ≠ "" then
    match curpartSaveas s peer tokens with
    | some res => some res
    | none =>
      let snooped : Option (Option MSession) :=
        if s.kind = SKind.toPrisoner then
          match peer with
          | some p =>
            match p.tileCache with
            | some pc =>
              (prisonerSnoop pc tokens fr).map
                (fun pc2 => some { p with tileCache := some pc2 })
            | none => some peer
          | none => some peer
        else some peer
      match snooped with
      | none => none
      | some peer2 =>
        some ⟨s, peer2,
              (match peer2 with
               | some _ => [Output.forward fr.line fr.tail]
               | none => []), true⟩
  else if t0 = "child" then
    if s.kind ≠ SKind.toPrisoner then
      some ⟨s, peer, [Output.sendText "error: cmd=child kind=invalid"], false⟩
    else if peer.isSome then
      some ⟨s, peer, [Output.sendText "error: cmd=child kind=invalid"], false⟩
    else
      match tokens with
      | [_, cid, nid, pidTok] =>
        match stringToInteger pidTok with
        | some pid =>
          some ⟨{ s with sid := nid, childId := cid, pidChild := pid }, peer,
                [Output.availableInsert nid, Output.notifyAvailable], true⟩
        | none => none
      | _ => some ⟨s, peer, [Output.sendText "error: cmd=child kind=syntax"], false⟩
  else if s.kind = SKind.toPrisoner then
    none
  else if t0 = "load" then
    if s.docURL ≠ "" then
      some ⟨s, peer, [Output.sendText "error: cmd=load kind=docalreadyloaded"], false⟩
    else
      some (loadDocument s peer tokens)
  else if allowList.contains t0 = false then
    some ⟨s, peer, [Output.sendText ("error: cmd=" ++ t0 ++ " kind=unknown")], false⟩
  else if s.docURL = "" then
    some ⟨s, peer, [Output.sendText ("error: cmd=" ++ t0 ++ " kind=nodocloaded")], false⟩
  else if t0 = "canceltiles" then
    some ⟨s, peer,
          (match peer with
           | some _ => [Output.forward fr.line fr.tail]
           | none => []), true⟩
  else if t0 = "commandvalues" then do
    let cache ← s.tileCache
    let r := getCommandValues cache peer.isNone tokens fr
    some ⟨s, peer, r.1, r.2⟩
  else if t0 = "partpagerectangles" then do
    let cache ← s.tileCache
    let r := getPartPageRectangles cache peer.isNone fr
    some ⟨s, peer, r.1, r.2⟩
  else if t0 = "invalidatetiles" then do
    let cache ← s.tileCache
    let res := invalidateTilesCmd cache s.curPart tokens
    some ⟨{ s with tileCache := some res.cache }, peer, res.outs, res.ret⟩
  else if t0 = "renderfont" then do
    let cache ← s.tileCache
    some ⟨s, peer, sendFontRendering cache peer.isNone tokens fr, true⟩
  else if t0 = "status" then do
    let cache ← s.tileCache
    let r := getStatus cache peer.isNone fr
    some ⟨s, peer, r.1, r.2⟩
  else if t0 = "tile" then do
    let cache ← s.tileCache
    some ⟨s, peer, sendTile cache peer.isNone tokens fr, true⟩
  else if t0 = "tilecombine" then do
    let cache ← s.tileCache
    let outs ← sendCombinedTiles cache peer.isNone tokens
    some ⟨s, peer, outs, true⟩
  else
    let pre := (if peer.isNone then [Output.dispatchChildCall] else []) ++
               (if t0 ≠ "requestloksession" then [Output.forward fr.line fr.tail] else [])
    if t0 = "uno" ∧ tokens.get? 1 = some ".uno:Save" then do
      let cache ← s.tileCache
      some ⟨{ s with tileCache := some cache.documentSaved }, peer, pre, true⟩
    else if t0 = "disconnect" then
      some ⟨s, peer,
            pre ++ [Output.disconnectPeer ((tokens.get? 1).getD "")], false⟩
    else
      some ⟨s, peer, pre, true⟩

end MasterProcessSession

namespace MasterProcessSession

/-- The result of `dispatchChild`: the condition waits performed (each with
its timeout in milliseconds), the broker `request` lines re-issued on
timeouts, whether a child was found and its table entry erased, the mutual
peer assignments, the `load` sent to the worker, and whether the client
WebSocket was shut down. -/
structure DispatchRes where
  waits : List Nat
  requests : List String
  found : Bool
  erased : Bool
  selfPeer : Option String
  childPeer : Option String
  loadMsg : Option String
  wsShutdown : Bool
deriving DecidableEq, Repr

/-- The broker `request` line for a session and document URL. -/
def requestMsg (sid docURL : String) : String :=
  "request " ++ sid ++ " " ++ docURL ++ "\r\n"

/-- Modelled from the spec: the `load` line built from `DocumentURI::create`
(public and jailed URIs) and sent to the freshly paired worker session. -/
def childLoadMsg (s : MSession) (childPid : Int) : String :=
  "load url=" ++ s.docURL ++ " jail=file:///jail/" ++ toString childPid ++ "/" ++ s.docURL ++
  (if s.loadPart ≥ 0 then " part=" ++ toString s.loadPart else "") ++
  (if s.docOptions.isEmpty = false then " options=" ++ s.docOptions else "")

/-- The retry loop of `dispatchChild`: `while (nRequest-- && !bFound)`.
`a i` tells whether the available-child table holds our session id by the
end of wait attempt `i`.  The returned counter is the value `nRequest` had
at the loop condition that exited (so the source's final `nRequest < 0`
test is `counter = 0`); each performed wait is recorded with its 2000 ms
timeout, and each timed-out attempt re-issues the broker request. -/
def dispatchLoop (a : Nat → Bool) (sid url : String) :
    Nat → Nat → Bool → List Nat → List String → Nat × Bool × List Nat × List String
  | 0, _, bFound, waits, reqs => (0, bFound, waits, reqs)
  | Nat.succ m, attempt, bFound, waits, reqs =>
    if bFound then (Nat.succ m, bFound, waits, reqs)
    else
      let found2 := a attempt
      dispatchLoop a sid url m (attempt + 1) found2 (waits ++ [2000])
        (if found2 then reqs else reqs ++ [requestMsg sid url])

/-- `MasterProcessSession::dispatchChild`: wait (up to 3 attempts of up to
2 s each) for the available-child table to hold an entry for this session
id, re-issuing the broker `request` on every timeout; on success erase the
entry, pair the two sessions mutually and send the `load`; on exhaustion
shut down the client WebSocket. -/
def dispatchChild (a : Nat → Bool) (bShutdown : Bool) (s child : MSession) :
    DispatchRes :=
  if bShutdown then
    ⟨[], [], false, false, none, none, none, false⟩
  else
    let r := dispatchLoop a s.sid s.docURL 3 0 false [] []
    if r.2.1 then
      { waits := r.2.2.1, requests := r.2.2.2, found := true, erased := true,
        selfPeer := some child.sid, childPeer := some s.sid,
        loadMsg := some (childLoadMsg s child.pidChild), wsShutdown := false }
    else
      { waits := r.2.2.1, requests := r.2.2.2, found := false, erased := false,
        selfPeer := none, childPeer := none, loadMsg := none,
        wsShutdown := decide (r.1 = 0) }

end MasterProcessSession

namespace LOOLKit

/-- A view-management operation on a worker document: a session attempting
`onLoad` (with the engine's success as an oracle) or `onUnload`. -/
inductive DocOp where
  | load (sid : Nat) (engineOk : Bool)
  | unload (sid : Nat)
deriving DecidableEq, Repr

/-- The worker-local `Document` state relevant to view counting: whether
the engine document is loaded, the unsigned 32-bit `_clientViews` counter,
and the session ids registered in `_connections`. -/
structure DocState where
  loKitDocument : Bool
  clientViews : Nat
  connections : List Nat
deriving DecidableEq, Repr

/-- `Document::onLoad`: fail (returning null) when the session is not in
`_connections` or when the engine load fails; otherwise load the document
if needed and increment `_clientViews`.  The increment wraps as the
unsigned counter does. -/
def onLoad (st : DocState) (sid : Nat) (engineOk : Bool) : DocState × Bool :=
  if st.connections.contains sid = false then (st, false)
  else if st.loKitDocument = false then
    if engineOk = false then (st, false)
    else ({ st with loKitDocument := true,
                    clientViews := (st.clientViews + 1) % 2 ^ 32 }, true)
  else ({ st with clientViews := (st.clientViews + 1) % 2 ^ 32 }, true)

/-- `Document::onUnload`: do nothing when the session is not in
`_connections`; otherwise decrement `_clientViews` unconditionally — the
unsigned counter wraps around below zero. -/
def onUnload (st : DocState) (sid : Nat) : DocState × Bool :=
  if st.connections.contains sid = false then (st, false)
  else ({ st with clientViews := (st.clientViews + (2 ^ 32 - 1)) % 2 ^ 32 }, true)

/-- Run a sequence of view operations, returning the final state, the
number of successful `onLoad` calls and the number of completed
`onUnload` calls (those that reached the decrement). -/
def runOps (st : DocState) : List DocOp → DocState × Nat × Nat
  | [] => (st, 0, 0)
  | DocOp.load sid ok :: rest =>
    let r := onLoad st sid ok
    let q := runOps r.1 rest
    (q.1, (if r.2 then 1 else 0) + q.2.1, q.2.2)
  | DocOp.unload sid :: rest =>
    let r := onUnload st sid
    let q := runOps r.1 rest
    (q.1, q.2.1, (if r.2 then 1 else 0) + q.2.2)

/-- The number of successful `onLoad` calls in a run. -/
def loadsOf (st : DocState) (ops : List DocOp) : Nat :=
  (runOps st ops).2.1

/-- The number of completed `onUnload` calls in a run. -/
def unloadsOf (st : DocState) (ops : List DocOp) : Nat :=
  (runOps st ops).2.2

/-- `Connection::handle`: every frame except `paste` is enqueued as its
first line after the single-line assertion (modelled as abort when the
frame has more lines); `paste` frames are enqueued whole. -/
def handleFrame (queue : List String) (raw : String) : Option (List String) :=
  let firstLine := getFirstLine raw
  if strStarts firstLine "paste" = false then
    if firstLine.length = raw.length then some (queue ++ [firstLine]) else none
  else some (queue ++ [raw])

/-- Is this frame the `nextmessage: size=N` prefix announcing a large
follow-up frame? -/
def isNextMsg (firstLine : String) : Bool :=
  match tokenize firstLine with
  | [a, b] =>
    a = "nextmessage:" &&
    (match getTokenInteger b "size" with
     | some sz => decide (sz > 0)
     | none => false)
  | _ => false

/-- The reader loop of `Connection::run`: receive frames, stop on an `eof`
first line or on a first line that is exactly `disconnect` (a reason makes
the comparison fail), read the follow-up frame of a `nextmessage:`
announcement, and enqueue everything else.  Returns the queue contents at
loop exit; the frame list ending models the socket closing. -/
def readerLoop : List String → List String → Option (List String)
  | [], queue => some queue
  | raw :: rest, queue =>
    let firstLine := getFirstLine raw
    if firstLine = "eof" then some queue
    else if firstLine = "disconnect" then some queue
    else if isNextMsg firstLine then
      match rest with
      | next :: rest2 =>
        match handleFrame queue next with
        | some q2 => readerLoop rest2 q2
        | none => none
      | [] => some queue
    else
      match handleFrame queue raw with
      | some q2 => readerLoop rest q2
      | none => none

/-- Modelled from the spec: the `QueueHandler` consumer takes commands in
order and dispatches each to the engine until it takes the `eof`
sentinel. -/
def consumeUntilEof (queue : List String) : List String :=
  queue.takeWhile (fun c => c ≠ "eof")

/-- The observable outcome of one `Connection::run` execution. -/
structure RunnerRes where
  dispatched : List String
  released : Bool
deriving DecidableEq, Repr

/-- `Connection::run`: run the reader loop; `k` is the number of queued
commands the concurrent consumer had already dispatched when the reader
finished.  The reader then clears the queue (discarding the pending
commands), enqueues the `eof` sentinel, joins the consumer — which stops
at the sentinel — and releases the session. -/
def connectionRun (frames : List String) (k : Nat) : Option RunnerRes := do
  let enqueued ← readerLoop frames []
  let consumedEarly := enqueued.take k
  some { dispatched := consumedEarly ++ consumeUntilEof ["eof"], released := true }

/-- Insert a document for a URL if absent (`lower_bound`/`emplace_hint` on
the std::map), keyed with its discardability. -/
def upsertDoc (documents : List (String × Bool)) (url : String) :
    List (String × Bool) :=
  if documents.any (fun d => decide (d.1 = url)) then documents
  else documents ++ [(url, false)]

/-- The request dispatch of the worker's broker-pipe loop in `lokit_main`:
`aResponse` is initialized to the pid prefix, `query url` sweeps
discardable documents and appends `empty` or the hosted URL, `thread`
creates a session and appends `ok`, and anything else overwrites
`aResponse` with `bad \r\n` (losing the pid prefix).  `none` models the
unguarded token accesses. -/
def brokerHandle (pid : Nat) (documents : List (String × Bool)) (msg : String) :
    Option (String × List (String × Bool)) := do
  let tokens := tokenize msg
  let aResponse := toString pid ++ " "
  let t0 ← tokens.get? 0
  if t0 = "query" ∧ tokens.length > 1 then
    if tokens.get? 1 = some "url" then
      let docs2 := documents.filter (fun d => d.2 = false)
      match docs2 with
      | [] => some (aResponse ++ "empty \r\n", docs2)
      | d :: _ => some (aResponse ++ d.1 ++ "\r\n", docs2)
    else
      some (aResponse, documents)
  else if t0 = "thread" then
    let _sid ← tokens.get? 1
    let url ← tokens.get? 2
    some (aResponse ++ "ok \r\n", upsertDoc documents url)
  else
    some ("bad \r\n", documents)

end LOOLKit

namespace MasterProcessSession

/-- The cache key a `tilecombine` request with fixed part/sizes uses for
position `(x, y)`. -/
def combineKey (part w h tw th : Int) (p : Int × Int) : TileKey :=
  ⟨part, w, h, p.1, p.2, tw, th⟩

/-- The positions of a `tilecombine` request whose cache lookup missed. -/
def missesOf (cache : TileCache) (part w h tw th : Int)
    (pairs : List (Int × Int)) : List (Int × Int) :=
  pairs.filter (fun p => (cache.lookupTile (combineKey part w h tw th p)).isNone)

/-- The tile responses served for the positions of a `tilecombine` request
whose cache lookup hit, in request order. -/
def hitOutsOf (cache : TileCache) (part w h tw th : Int)
    (pairs : List (Int × Int)) : List Output :=
  pairs.filterMap (fun p =>
    (cache.lookupTile (combineKey part w h tw th p)).map (fun bytes =>
      Output.sendBinaryMsg (combineTileHeader part w h p.1 p.2 tw th) bytes))

/-- Comma-separated join of a token list. -/
def commaJoin : List String → String
  | [] => ""
  | [s] => s
  | s :: rest => s ++ "," ++ commaJoin rest

/-- The tail of a comma-separated join: a leading comma before every
element. -/
def commaJoinTail : List String → String
  | [] => ""
  | s :: rest => "," ++ s ++ commaJoinTail rest

end MasterProcessSession

namespace LOOLKit

/-- A frame that the worker session reader treats as an ordinary one-line
command: single-line, not a `paste`, not a `nextmessage:` announcement and
not one of the two terminators. -/
def plainCmdFrame (f : String) : Bool :=
  !(f.data.contains '\n') && !(strStarts f "paste") && !(isNextMsg f) &&
  !(decide (f = "eof")) && !(decide (f = "disconnect"))

end LOOLKit

section StringLemmas

theorem natToDigitsCore_length_le (b fuel : Nat) :
    ∀ (n : Nat) (ds : List Char), ds.length ≤ (Nat.toDigitsCore b fuel n ds).length := by
  induction fuel with
  | zero => intro n ds; simp [Nat.toDigitsCore]
  | succ fuel ih =>
    intro n ds
    rw [Nat.toDigitsCore]
    split
    · simp
    · exact le_trans (by simp) (ih _ _)

theorem natToDigits_ne_nil (b n : Nat) : Nat.toDigits b n ≠ [] := by
  have h : 1 ≤ (Nat.toDigits b n).length := by
    rw [Nat.toDigits, Nat.toDigitsCore]
    split
    · simp
    · exact le_trans (by simp) (natToDigitsCore_length_le b n _ _)
  intro hc
  rw [hc] at h
  simp at h

theorem intToString_data_ne (x : Int) : (toString x).data ≠ [] := by
  show (Int.repr x).data ≠ []
  cases x with
  | ofNat n =>
    show ((Nat.toDigits 10 n).asString).data ≠ []
    simpa [List.asString] using natToDigits_ne_nil 10 n
  | negSucc n =>
    show (("-" ++ Nat.repr (n + 1))).data ≠ []
    simp [String.data_append]

theorem strDataNe_ne_empty {s : String} (h : s.data ≠ []) : s ≠ "" := by
  intro hc
  exact h (by rw [hc])

theorem strIsEmpty_false_of_data {s : String} (h : s.data ≠ []) : s.isEmpty = false := by
  rcases hb : s.isEmpty with _ | _
  · rfl
  · exact absurd ((String.isEmpty_iff s).mp hb) (strDataNe_ne_empty h)

theorem strAppend_data_ne_right (a b : String) (h : b.data ≠ []) : (a ++ b).data ≠ [] := by
  rw [String.data_append]
  simp [h]

theorem strAppend_empty (s : String) : s ++ "" = s := by
  apply String.ext
  rw [String.data_append]
  simp

theorem strAppend_assoc (a b c : String) : a ++ b ++ c = a ++ (b ++ c) := by
  apply String.ext
  simp [String.data_append]

end StringLemmas

section CsvLemmas

open MasterProcessSession

theorem appendCSV_empty_acc (x : String) : appendCSV "" x = x := rfl

theorem appendCSV_of_ne (acc x : String) (h : acc.data ≠ []) :
    appendCSV acc x = acc ++ "," ++ x := by
  simp [appendCSV, strIsEmpty_false_of_data h]

theorem strAppend_data_ne_left (a b : String) (h : a.data ≠ []) :
    (a ++ b).data ≠ [] := by
  rw [String.data_append]
  simp [h]

theorem commaJoin_cons (x : String) (rest : List String) :
    commaJoin (x :: rest) = x ++ commaJoinTail rest := by
  induction rest generalizing x with
  | nil => show x = x ++ ""; rw [strAppend_empty]
  | cons y t ih =>
    show x ++ "," ++ commaJoin (y :: t) = x ++ ("," ++ y ++ commaJoinTail t)
    rw [ih y]
    simp only [strAppend_assoc]

theorem foldl_appendCSV_acc (l : List String) :
    ∀ acc : String, acc.data ≠ [] →
      List.foldl appendCSV acc l = acc ++ commaJoinTail l := by
  induction l with
  | nil => intro acc _; show acc = acc ++ ""; rw [strAppend_empty]
  | cons s r ih =>
    intro acc hacc
    have hacs : (acc ++ "," ++ s).data ≠ [] := by
      apply strAppend_data_ne_left
      apply strAppend_data_ne_left
      exact hacc
    rw [List.foldl_cons, appendCSV_of_ne acc s hacc, ih (acc ++ "," ++ s) hacs]
    show acc ++ "," ++ s ++ commaJoinTail r = acc ++ ("," ++ s ++ commaJoinTail r)
    simp only [strAppend_assoc]

theorem foldl_appendCSV_commaJoin (l : List String) (hl : ∀ s ∈ l, s.data ≠ []) :
    List.foldl appendCSV "" l = commaJoin l := by
  cases l with
  | nil => rfl
  | cons x rest =>
    rw [List.foldl_cons, appendCSV_empty_acc,
        foldl_appendCSV_acc rest x (hl x (by simp)), commaJoin_cons]

theorem commaJoin_data_ne (l : List String) (h0 : l ≠ [])
    (hl : ∀ s ∈ l, s.data ≠ []) : (commaJoin l).data ≠ [] := by
  cases l with
  | nil => exact absurd rfl h0
  | cons x rest =>
    rw [commaJoin_cons]
    cases rest with
    | nil =>
      simpa [commaJoinTail, strAppend_empty] using hl x (by simp)
    | cons y t =>
      rw [String.data_append]
      have := hl x (by simp)
      simp [this]

end CsvLemmas

/-- Claim C10: `_handleInput` reads token 0 of the tokenized first line
unconditionally, and for a `loolclient` frame reads token 1
unconditionally; for every frame whose first line tokenizes to zero tokens
(empty or all-whitespace), and for every `loolclient` frame with no
version token, the token access is out of range — in the embedding the
handler aborts with `none`, and both branches are reachable from the
public interface. -/
theorem handleInput_token_oor (s : MSession) (peer : Option MSession) (fr : Frame) :
    (tokenize fr.line = [] → MasterProcessSession.handleInput s peer fr = none) ∧
    (tokenize fr.line = ["loolclient"] → MasterProcessSession.handleInput s peer fr = none) := by
  constructor
  · intro h
    simp [MasterProcessSession.handleInput, h]
  · intro h
    simp [MasterProcessSession.handleInput, h]

/-- Witness for C10: the empty frame and the bare `loolclient` frame both
abort with the out-of-range token access. -/
theorem handleInput_token_oor_witness :
    (MasterProcessSession.handleInput ⟨SKind.toClient, "7", "", "", 0, 0, -1, "", none⟩
      none ⟨"   ", none⟩ = none) ∧
    (MasterProcessSession.handleInput ⟨SKind.toClient, "7", "", "", 0, 0, -1, "", none⟩
      none ⟨"loolclient", none⟩ = none) :=
  ⟨(handleInput_token_oor _ _ _).1 (by decide),
   (handleInput_token_oor _ _ _).2 (by decide)⟩

/-- Claim C3 (code bug): a `curpart: part=N` frame on a ToPrisoner session
is not forwarded, but the source stores `N` into the receiving prisoner
session's own `_curPart` instead of the peer ToClient session's; the
client's `_curPart` stays `0`, so a subsequent client `invalidatetiles`
passes part `0` — not `N` — to the cache invalidation. -/
theorem curpart_updates_wrong_session :
    (MasterProcessSession.handleInput
        ⟨SKind.toPrisoner, "1", "file:///d.odt", "ch", 0, 0, -1, "", none⟩
        (some ⟨SKind.toClient, "1", "file:///d.odt", "", 0, 0, -1, "",
                some (TileCache.create "file:///d.odt")⟩)
        ⟨"curpart: part=5", none⟩ =
      some ⟨⟨SKind.toPrisoner, "1", "file:///d.odt", "ch", 0, 5, -1, "", none⟩,
            some ⟨SKind.toClient, "1", "file:///d.odt", "", 0, 0, -1, "",
                  some (TileCache.create "file:///d.odt")⟩,
            [], true⟩) ∧
    ((MasterProcessSession.invalidateTilesCmd (TileCache.create "file:///d.odt") 0
        ["invalidatetiles", "part=7", "tileposx=0", "tileposy=0",
         "tilewidth=3840", "tileheight=3840"]).call =
      some (0, 0, 0, 3840, 3840)) ∧
    (0 : Int) ≠ 5 := by
  refine ⟨by decide, by decide, by decide⟩

/-- Claim C8 (code bug): in the worker's broker-pipe loop the `query` and
`thread` replies append to the pid-prefixed `aResponse`, but the reply for
an unparseable request overwrites it with plain `bad \r\n`, so that reply
is not prefixed with the worker's pid. -/
theorem broker_bad_reply_unprefixed :
    (LOOLKit.brokerHandle 123 [] "blah request" = some ("bad \r\n", [])) ∧
    (strStarts "bad \r\n" (toString (123 : Nat) ++ " ") = false) ∧
    (LOOLKit.brokerHandle 123 [] "query url" = some ("123 empty \r\n", [])) := by
  refine ⟨by decide, by decide, by decide⟩

/-- Counterexample to claim C6 as stated: `child` is not in the 27-entry
allow-list, yet on a ToClient session it is answered with
`error: cmd=child kind=invalid`, not `kind=unknown`. -/
theorem child_cmd_not_unknown :
    (MasterProcessSession.handleInput ⟨SKind.toClient, "7", "", "", 0, 0, -1, "", none⟩
        none ⟨"child a b c", none⟩ =
      some ⟨⟨SKind.toClient, "7", "", "", 0, 0, -1, "", none⟩, none,
            [Output.sendText "error: cmd=child kind=invalid"], false⟩) ∧
    (MasterProcessSession.allowList.contains "child" = false) ∧
    ("error: cmd=child kind=invalid" ≠ "error: cmd=child kind=unknown") := by
  refine ⟨by decide, by decide, by decide⟩

/-- Counterexample to claim C9 as stated: a `tilecombine` whose tileposx
list (one entry) is shorter than its tileposy list (two entries) but whose
first tileposx entry does not parse as an integer is answered with a
syntax error before any out-of-range access — the result is not the
out-of-range abort. -/
theorem combine_short_xs_not_oor :
    (MasterProcessSession.sendCombinedTiles (TileCache.create "u") false
        ["tilecombine", "part=0", "width=256", "height=256", "tileposx=a",
         "tileposy=1,2", "tilewidth=3840", "tileheight=3840"] =
      some [Output.sendText "error: cmd=tilecombine kind=syntax"]) ∧
    ((tokenizeComma "a").length < (tokenizeComma "1,2").length) := by
  refine ⟨by decide, by decide⟩

/-- Counterexample to claim C4 as stated: an `onUnload` for a registered
session that never loaded decrements the unsigned `_clientViews` from 0,
wrapping to 4294967295; the claimed equality with `loads - unloads = -1`
(and hence the claimed non-negativity) fails. -/
theorem clientViews_underflow :
    ((LOOLKit.runOps ⟨false, 0, [7]⟩ [LOOLKit.DocOp.unload 7]).1.clientViews =
      4294967295) ∧
    (LOOLKit.loadsOf ⟨false, 0, [7]⟩ [LOOLKit.DocOp.unload 7] = 0) ∧
    (LOOLKit.unloadsOf ⟨false, 0, [7]⟩ [LOOLKit.DocOp.unload 7] = 1) ∧
    ((4294967295 : Int) ≠ 0 - 1) := by
  refine ⟨by decide, by decide, by decide, by decide⟩

/-- Counterexample to claim C5 as stated: with frames `key a`,
`disconnect gone`, `eof` and a consumer that had dispatched nothing yet,
the reader does not stop at `disconnect gone` (the comparison is with the
whole first line, so a reason defeats it) but enqueues it; at `eof` it
clears the queue, so neither enqueued command is ever dispatched, though
the session is released. -/
theorem runner_discards_pending :
    (LOOLKit.readerLoop ["key a", "disconnect gone", "eof"] [] =
      some ["key a", "disconnect gone"]) ∧
    (LOOLKit.connectionRun ["key a", "disconnect gone", "eof"] 0 =
      some ⟨[], true⟩) := by
  refine ⟨by decide, by decide⟩

theorem allowList_excludes :
    ∀ x ∈ MasterProcessSession.allowList,
      x ≠ "loolclient" ∧ x ≠ "child" ∧ x ≠ "load" := by decide

/-- Claim C6 (amended): on a ToClient session before any worker handshake,
every command other than the `loolclient` handshake, the worker `child`
handshake and `load` whose name is not in the 27-entry allow-list yields
exactly `error: cmd=<name> kind=unknown`; every allow-listed command
issued before a document is loaded yields
`error: cmd=<name> kind=nodocloaded`; and a second `load` on a session
already holding a document yields `error: cmd=load kind=docalreadyloaded`
and leaves the session's prior state (document URL, cache, peer)
unchanged. -/
theorem client_command_classification
    (s : MSession) (peer : Option MSession) (fr : Frame) (t0 : String)
    (ts : List String)
    (hkind : s.kind = SKind.toClient) (hchild : s.childId = "")
    (htok : tokenize fr.line = t0 :: ts) :
    (MasterProcessSession.allowList.contains t0 = false →
      t0 ≠ "loolclient" → t0 ≠ "child" → t0 ≠ "load" →
      MasterProcessSession.handleInput s peer fr =
        some ⟨s, peer, [Output.sendText ("error: cmd=" ++ t0 ++ " kind=unknown")], false⟩) ∧
    (t0 ∈ MasterProcessSession.allowList → s.docURL = "" →
      MasterProcessSession.handleInput s peer fr =
        some ⟨s, peer, [Output.sendText ("error: cmd=" ++ t0 ++ " kind=nodocloaded")], false⟩) ∧
    (t0 = "load" → s.docURL ≠ "" →
      MasterProcessSession.handleInput s peer fr =
        some ⟨s, peer, [Output.sendText "error: cmd=load kind=docalreadyloaded"], false⟩) := by
  refine ⟨?_, ?_, ?_⟩
  · intro hcon h1 h2 h3
    have hni : t0 ∉ MasterProcessSession.allowList := by simpa using hcon
    simp [MasterProcessSession.handleInput, htok, hchild, hkind, hni, h1, h2, h3]
  · intro hmem hdoc
    obtain ⟨h1, h2, h3⟩ := allowList_excludes t0 hmem
    simp [MasterProcessSession.handleInput, htok, hchild, hkind, hmem, h1, h2, h3, hdoc]
  · intro h0 hdoc
    subst h0
    simp [MasterProcessSession.handleInput, htok, hchild, hkind, hdoc]

/-- Witness for C6: an unknown `frobnicate` command, a `tile` before load
and a second `load` each produce the classified error. -/
theorem client_command_classification_witness :
    (MasterProcessSession.handleInput ⟨SKind.toClient, "7", "", "", 0, 0, -1, "", none⟩
        none ⟨"frobnicate now", none⟩ =
      some ⟨⟨SKind.toClient, "7", "", "", 0, 0, -1, "", none⟩, none,
            [Output.sendText "error: cmd=frobnicate kind=unknown"], false⟩) ∧
    (MasterProcessSession.handleInput ⟨SKind.toClient, "7", "", "", 0, 0, -1, "", none⟩
        none ⟨"tile part=0", none⟩ =
      some ⟨⟨SKind.toClient, "7", "", "", 0, 0, -1, "", none⟩, none,
            [Output.sendText "error: cmd=tile kind=nodocloaded"], false⟩) ∧
    (MasterProcessSession.handleInput ⟨SKind.toClient, "7", "file:///d.odt", "", 0, 0, -1, "", none⟩
        none ⟨"load url=file:///e.odt", none⟩ =
      some ⟨⟨SKind.toClient, "7", "file:///d.odt", "", 0, 0, -1, "", none⟩, none,
            [Output.sendText "error: cmd=load kind=docalreadyloaded"], false⟩) :=
  ⟨(client_command_classification _ none _ "frobnicate" ["now"] rfl rfl (by decide)).1
      (by decide) (by decide) (by decide) (by decide),
   ((client_command_classification _ none _ "tile" ["part=0"] rfl rfl (by decide)).2.1
      (by decide) rfl),
   ((client_command_classification _ none _ "load" ["url=file:///e.odt"] rfl rfl (by decide)).2.2
      rfl (by decide))⟩

theorem lookupTile_saveTile (tc : TileCache) (k : TileKey) (b : List Nat) :
    (tc.saveTile k b).lookupTile k = some b := by
  simp [TileCache.saveTile, TileCache.lookupTile, List.find?]

/-- Claim C2: a tile response frame snooped on a ToPrisoner session stores
its binary tail in the peer's tile cache under the 7-tuple key and is
forwarded; an immediately repeated `tile` request with the same 7-tuple on
the paired ToClient session is then answered from the cache with a single
binary frame — nothing is forwarded to the worker. -/
theorem tile_snoop_roundtrip
    (pris cli : MSession) (tc : TileCache) (frw : Frame) (bytes : List Nat)
    (u1 u2 u3 u4 u5 u6 u7 : String) (urest : List String)
    (reqTokens : List String) (reqFr : Frame) (pg : Bool)
    (c0 v1 v2 v3 v4 v5 v6 v7 : String) (vrest : List String) (k : TileKey)
    (hkind : pris.kind = SKind.toPrisoner) (hchild : pris.childId ≠ "")
    (hcli : cli.tileCache = some tc)
    (htokw : tokenize frw.line = "tile:" :: u1 :: u2 :: u3 :: u4 :: u5 :: u6 :: u7 :: urest)
    (hparsew : MasterProcessSession.parseTileKey u1 u2 u3 u4 u5 u6 u7 = some k)
    (htail : frw.tail = some bytes)
    (hreq : reqTokens = c0 :: v1 :: v2 :: v3 :: v4 :: v5 :: v6 :: v7 :: vrest)
    (hparser : MasterProcessSession.parseTileKey v1 v2 v3 v4 v5 v6 v7 = some k)
    (hvalid : MasterProcessSession.tileKeyValid k = true) :
    MasterProcessSession.handleInput pris (some cli) frw =
      some ⟨pris, some { cli with tileCache := some (tc.saveTile k bytes) },
            [Output.forward frw.line frw.tail], true⟩ ∧
    MasterProcessSession.sendTile (tc.saveTile k bytes) pg reqTokens reqFr =
      [Output.sendBinaryMsg
        ("tile: " ++ catSpace (v1 :: v2 :: v3 :: v4 :: v5 :: v6 :: v7 :: vrest) ++ "\n")
        bytes] := by
  constructor
  · simp [MasterProcessSession.handleInput, htokw, hchild, hkind, hcli,
          MasterProcessSession.curpartSaveas, MasterProcessSession.prisonerSnoop,
          hparsew, htail]
  · subst hreq
    simp [MasterProcessSession.sendTile, hparser, hvalid, lookupTile_saveTile]

/-- Witness for C2 at a concrete tile response and matching request. -/
theorem tile_snoop_roundtrip_witness :
    MasterProcessSession.handleInput
        ⟨SKind.toPrisoner, "1", "file:///d.odt", "ch", 0, 0, -1, "", none⟩
        (some ⟨SKind.toClient, "1", "file:///d.odt", "", 0, 0, -1, "",
               some (TileCache.create "file:///d.odt")⟩)
        ⟨"tile: part=0 width=256 height=256 tileposx=0 tileposy=0 tilewidth=3840 tileheight=3840",
         some [9, 8, 7]⟩ =
      some ⟨⟨SKind.toPrisoner, "1", "file:///d.odt", "ch", 0, 0, -1, "", none⟩,
            some ⟨SKind.toClient, "1", "file:///d.odt", "", 0, 0, -1, "",
                  some ((TileCache.create "file:///d.odt").saveTile
                          ⟨0, 256, 256, 0, 0, 3840, 3840⟩ [9, 8, 7])⟩,
            [Output.forward
              "tile: part=0 width=256 height=256 tileposx=0 tileposy=0 tilewidth=3840 tileheight=3840"
              (some [9, 8, 7])], true⟩ ∧
    MasterProcessSession.sendTile
        ((TileCache.create "file:///d.odt").saveTile ⟨0, 256, 256, 0, 0, 3840, 3840⟩ [9, 8, 7])
        false
        ["tile", "part=0", "width=256", "height=256", "tileposx=0", "tileposy=0",
         "tilewidth=3840", "tileheight=3840"]
        ⟨"tile part=0 width=256 height=256 tileposx=0 tileposy=0 tilewidth=3840 tileheight=3840",
         none⟩ =
      [Output.sendBinaryMsg
        ("tile: " ++ catSpace ["part=0", "width=256", "height=256", "tileposx=0", "tileposy=0",
                               "tilewidth=3840", "tileheight=3840"] ++ "\n")
        [9, 8, 7]] :=
  tile_snoop_roundtrip
    ⟨SKind.toPrisoner, "1", "file:///d.odt", "ch", 0, 0, -1, "", none⟩
    ⟨SKind.toClient, "1", "file:///d.odt", "", 0, 0, -1, "",
     some (TileCache.create "file:///d.odt")⟩
    (TileCache.create "file:///d.odt")
    ⟨"tile: part=0 width=256 height=256 tileposx=0 tileposy=0 tilewidth=3840 tileheight=3840",
     some [9, 8, 7]⟩
    [9, 8, 7]
    "part=0" "width=256" "height=256" "tileposx=0" "tileposy=0" "tilewidth=3840" "tileheight=3840"
    []
    ["tile", "part=0", "width=256", "height=256", "tileposx=0", "tileposy=0",
     "tilewidth=3840", "tileheight=3840"]
    ⟨"tile part=0 width=256 height=256 tileposx=0 tileposy=0 tilewidth=3840 tileheight=3840", none⟩
    false
    "tile" "part=0" "width=256" "height=256" "tileposx=0" "tileposy=0" "tilewidth=3840" "tileheight=3840"
    []
    ⟨0, 256, 256, 0, 0, 3840, 3840⟩
    rfl (by decide) rfl (by decide) (by decide) rfl rfl (by decide) (by decide)

/-- Claim C7: when a ToClient session needs a worker and none has
registered, `dispatchChild` waits on the available-child condition with a
2000 ms timeout per attempt, for at most 3 attempts, re-issuing the broker
`request <sessionId> <docURL>` line on each timeout; if all attempts are
exhausted without a child the client WebSocket is shut down; on success
the available-child entry is erased, the two sessions are paired mutually
and a `load` is sent to the worker. -/
theorem dispatchChild_retry_spec (a : Nat → Bool) (s child : MSession) :
    ((MasterProcessSession.dispatchChild a false s child).waits.length ≤ 3 ∧
     (∀ t ∈ (MasterProcessSession.dispatchChild a false s child).waits, t = 2000)) ∧
    (a 0 = false → a 1 = false → a 2 = false →
      MasterProcessSession.dispatchChild a false s child =
        { waits := [2000, 2000, 2000],
          requests := [MasterProcessSession.requestMsg s.sid s.docURL,
                       MasterProcessSession.requestMsg s.sid s.docURL,
                       MasterProcessSession.requestMsg s.sid s.docURL],
          found := false, erased := false, selfPeer := none, childPeer := none,
          loadMsg := none, wsShutdown := true }) ∧
    (a 0 = true →
      MasterProcessSession.dispatchChild a false s child =
        { waits := [2000], requests := [], found := true, erased := true,
          selfPeer := some child.sid, childPeer := some s.sid,
          loadMsg := some (MasterProcessSession.childLoadMsg s child.pidChild),
          wsShutdown := false }) ∧
    (a 0 = false → a 1 = true →
      MasterProcessSession.dispatchChild a false s child =
        { waits := [2000, 2000],
          requests := [MasterProcessSession.requestMsg s.sid s.docURL],
          found := true, erased := true,
          selfPeer := some child.sid, childPeer := some s.sid,
          loadMsg := some (MasterProcessSession.childLoadMsg s child.pidChild),
          wsShutdown := false }) ∧
    (a 0 = false → a 1 = false → a 2 = true →
      MasterProcessSession.dispatchChild a false s child =
        { waits := [2000, 2000, 2000],
          requests := [MasterProcessSession.requestMsg s.sid s.docURL,
                       MasterProcessSession.requestMsg s.sid s.docURL],
          found := true, erased := true,
          selfPeer := some child.sid, childPeer := some s.sid,
          loadMsg := some (MasterProcessSession.childLoadMsg s child.pidChild),
          wsShutdown := false }) := by
  rcases h0 : a 0 with _ | _ <;> rcases h1 : a 1 with _ | _ <;>
    rcases h2 : a 2 with _ | _ <;>
      simp [MasterProcessSession.dispatchChild, MasterProcessSession.dispatchLoop,
            h0, h1, h2]

/-- Witness for C7: with no child ever arriving the socket is shut down
after three 2000 ms waits; with a child arriving during the first wait the
sessions are paired and the load is sent. -/
theorem dispatchChild_retry_spec_witness :
    (MasterProcessSession.dispatchChild (fun _ => false) false
        ⟨SKind.toClient, "7", "file:///d.odt", "", 0, 0, -1, "", none⟩
        ⟨SKind.toPrisoner, "7", "", "ch", 321, 0, -1, "", none⟩ =
      { waits := [2000, 2000, 2000],
        requests := [MasterProcessSession.requestMsg "7" "file:///d.odt",
                     MasterProcessSession.requestMsg "7" "file:///d.odt",
                     MasterProcessSession.requestMsg "7" "file:///d.odt"],
        found := false, erased := false, selfPeer := none, childPeer := none,
        loadMsg := none, wsShutdown := true }) ∧
    (MasterProcessSession.dispatchChild (fun _ => true) false
        ⟨SKind.toClient, "7", "file:///d.odt", "", 0, 0, -1, "", none⟩
        ⟨SKind.toPrisoner, "7", "", "ch", 321, 0, -1, "", none⟩ =
      { waits := [2000], requests := [], found := true, erased := true,
        selfPeer := some "7", childPeer := some "7",
        loadMsg := some (MasterProcessSession.childLoadMsg
          ⟨SKind.toClient, "7", "file:///d.odt", "", 0, 0, -1, "", none⟩ 321),
        wsShutdown := false }) :=
  ⟨(dispatchChild_retry_spec (fun _ => false)
      ⟨SKind.toClient, "7", "file:///d.odt", "", 0, 0, -1, "", none⟩
      ⟨SKind.toPrisoner, "7", "", "ch", 321, 0, -1, "", none⟩).2.1 rfl rfl rfl,
   (dispatchChild_retry_spec (fun _ => true)
      ⟨SKind.toClient, "7", "file:///d.odt", "", 0, 0, -1, "", none⟩
      ⟨SKind.toPrisoner, "7", "", "ch", 321, 0, -1, "", none⟩).2.2.1 rfl⟩

theorem getFirstLine_of_no_newline (f : String) (h : f.data.contains '\n' = false) :
    getFirstLine f = f := by
  apply String.ext
  show f.data.takeWhile (fun c => decide (c ≠ '\n')) = f.data
  have h' : ¬ '\n' ∈ f.data := by simpa using h
  generalize f.data = l at h' ⊢
  induction l with
  | nil => rfl
  | cons c t ih =>
    have hc : c ≠ '\n' := fun hcc => h' (by simp [hcc])
    have hd : (decide (c ≠ '\n')) = true := by simp [hc]
    rw [List.takeWhile_cons, hd, if_pos rfl, ih (fun hm => h' (by simp [hm]))]

theorem handleFrame_plain (q : List String) (f : String)
    (hn : f.data.contains '\n' = false) (hp : strStarts f "paste" = false) :
    LOOLKit.handleFrame q f = some (q ++ [f]) := by
  simp [LOOLKit.handleFrame, getFirstLine_of_no_newline f hn, hp]

theorem readerLoop_plain (pre : List String) :
    ∀ q : List String, (∀ f ∈ pre, LOOLKit.plainCmdFrame f = true) →
      ∀ (term : String) (post : List String), term = "eof" ∨ term = "disconnect" →
        LOOLKit.readerLoop (pre ++ term :: post) q = some (q ++ pre) := by
  induction pre with
  | nil =>
    intro q _ term post hterm
    rcases hterm with rfl | rfl
    · have h1 : getFirstLine "eof" = "eof" := by decide
      rw [LOOLKit.readerLoop.eq_def]
      simp [h1]
    · have h1 : getFirstLine "disconnect" = "disconnect" := by decide
      have h2 : ("disconnect" : String) ≠ "eof" := by decide
      rw [LOOLKit.readerLoop.eq_def]
      simp [h1, h2]
  | cons f rest ih =>
    intro q hpre term post hterm
    have hf := hpre f (by simp)
    simp only [LOOLKit.plainCmdFrame, Bool.and_eq_true, Bool.not_eq_true',
               decide_eq_false_iff_not] at hf
    obtain ⟨⟨⟨⟨hn, hp⟩, hnm⟩, he⟩, hd⟩ := hf
    have hfl := getFirstLine_of_no_newline f hn
    rw [List.cons_append, LOOLKit.readerLoop.eq_def]
    simp only [hfl, if_neg he, if_neg hd, hnm, if_false, Bool.false_eq_true,
               handleFrame_plain q f hn hp]
    rw [ih (q ++ [f]) (fun g hg => hpre g (by simp [hg])) term post hterm]
    simp

/-- Claim C5 (amended): receiving an `eof` frame or a bare `disconnect`
frame (the source compares the whole first line, so `disconnect <reason>`
with a reason is enqueued like any other command) makes the runner stop
reading; the commands still pending in the queue are then discarded by
`queue.clear()` rather than consumed, the `eof` sentinel is enqueued as
terminator for the consumer, and the session is released — the dispatched
commands are exactly those the consumer had already taken. -/
theorem runner_terminator_behavior
    (pre : List String) (term : String) (post : List String) (k : Nat)
    (hpre : ∀ f ∈ pre, LOOLKit.plainCmdFrame f = true)
    (hterm : term = "eof" ∨ term = "disconnect") :
    LOOLKit.readerLoop (pre ++ term :: post) [] = some pre ∧
    LOOLKit.connectionRun (pre ++ term :: post) k = some ⟨pre.take k, true⟩ := by
  have h := readerLoop_plain pre [] hpre term post hterm
  simp only [List.nil_append] at h
  refine ⟨h, ?_⟩
  simp [LOOLKit.connectionRun, h, LOOLKit.consumeUntilEof]

/-- Witness for C5: two plain commands before `eof`, consumer had taken
one of them; only that one is dispatched and the session is released. -/
theorem runner_terminator_behavior_witness :
    LOOLKit.readerLoop (["key a", "disconnect gone"] ++ "eof" :: ["mouse b"]) [] =
      some ["key a", "disconnect gone"] ∧
    LOOLKit.connectionRun (["key a", "disconnect gone"] ++ "eof" :: ["mouse b"]) 1 =
      some ⟨["key a"], true⟩ :=
  runner_terminator_behavior ["key a", "disconnect gone"] "eof" ["mouse b"] 1
    (by decide) (Or.inl rfl)

section ViewCount

open LOOLKit

theorem onLoad_false_state (st : DocState) (sid : Nat) (ok : Bool)
    (h : (onLoad st sid ok).2 = false) : (onLoad st sid ok).1 = st := by
  by_cases h1 : sid ∈ st.connections
  · by_cases h2 : st.loKitDocument = false
    · by_cases h3 : ok = false
      · simp [onLoad, h1, h2, h3]
      · simp [onLoad, h1, h2, h3] at h
    · simp [onLoad, h1, h2] at h
  · simp [onLoad, h1]

theorem onLoad_true_views (st : DocState) (sid : Nat) (ok : Bool)
    (h : (onLoad st sid ok).2 = true) :
    (onLoad st sid ok).1.clientViews = (st.clientViews + 1) % 2 ^ 32 := by
  by_cases h1 : sid ∈ st.connections
  · by_cases h2 : st.loKitDocument = false
    · by_cases h3 : ok = false
      · simp [onLoad, h1, h2, h3] at h
      · simp [onLoad, h1, h2, h3]
    · simp [onLoad, h1, h2]
  · simp [onLoad, h1] at h

theorem onUnload_false_state (st : DocState) (sid : Nat)
    (h : (onUnload st sid).2 = false) : (onUnload st sid).1 = st := by
  by_cases h1 : sid ∈ st.connections
  · simp [onUnload, h1] at h
  · simp [onUnload, h1]

theorem onUnload_true_views (st : DocState) (sid : Nat)
    (h : (onUnload st sid).2 = true) :
    (onUnload st sid).1.clientViews = (st.clientViews + (2 ^ 32 - 1)) % 2 ^ 32 := by
  by_cases h1 : sid ∈ st.connections
  · simp [onUnload, h1]
  · simp [onUnload, h1] at h

theorem runOps_cons_load (st : DocState) (sid : Nat) (ok : Bool) (rest : List DocOp) :
    runOps st (DocOp.load sid ok :: rest) =
      ((runOps (onLoad st sid ok).1 rest).1,
       (if (onLoad st sid ok).2 then 1 else 0) + (runOps (onLoad st sid ok).1 rest).2.1,
       (runOps (onLoad st sid ok).1 rest).2.2) := rfl

theorem runOps_cons_unload (st : DocState) (sid : Nat) (rest : List DocOp) :
    runOps st (DocOp.unload sid :: rest) =
      ((runOps (onUnload st sid).1 rest).1,
       (runOps (onUnload st sid).1 rest).2.1,
       (if (onUnload st sid).2 then 1 else 0) + (runOps (onUnload st sid).1 rest).2.2) := rfl

theorem runOps_views_aux :
    ∀ (ops : List DocOp) (st : DocState),
      st.clientViews + ops.length < 2 ^ 32 →
      (∀ p, p <+: ops → unloadsOf st p ≤ st.clientViews + loadsOf st p) →
      (runOps st ops).1.clientViews + unloadsOf st ops =
        st.clientViews + loadsOf st ops := by
  intro ops
  induction ops with
  | nil =>
    intro st _ _
    simp [runOps, loadsOf, unloadsOf]
  | cons op rest ih =>
    intro st hlen hbal
    simp only [List.length_cons] at hlen
    have hbal' : ∀ p, p <+: rest →
        unloadsOf st (op :: p) ≤ st.clientViews + loadsOf st (op :: p) := by
      intro p hp
      obtain ⟨t, ht⟩ := hp
      exact hbal (op :: p) ⟨t, by simp [ht]⟩
    cases op with
    | load sid ok =>
      rcases hr : (onLoad st sid ok).2 with _ | _
      · have hst := onLoad_false_state st sid ok hr
        have h1 := ih (onLoad st sid ok).1 (by rw [hst]; omega) (by
          intro p hp
          have hb := hbal' p hp
          simp [unloadsOf, loadsOf, runOps_cons_load, hr, hst] at hb ⊢
          omega)
        simp [unloadsOf, loadsOf, runOps_cons_load, hr, hst] at h1 ⊢
        omega
      · have hv : (onLoad st sid ok).1.clientViews = st.clientViews + 1 := by
          rw [onLoad_true_views st sid ok hr]
          exact Nat.mod_eq_of_lt (by omega)
        have h1 := ih (onLoad st sid ok).1 (by rw [hv]; omega) (by
          intro p hp
          have hb := hbal' p hp
          simp [unloadsOf, loadsOf, runOps_cons_load, hr, hv] at hb ⊢
          omega)
        simp [unloadsOf, loadsOf, runOps_cons_load, hr, hv] at h1 ⊢
        omega
    | unload sid =>
      rcases hr : (onUnload st sid).2 with _ | _
      · have hst := onUnload_false_state st sid hr
        have h1 := ih (onUnload st sid).1 (by rw [hst]; omega) (by
          intro p hp
          have hb := hbal' p hp
          simp [unloadsOf, loadsOf, runOps_cons_unload, hr, hst] at hb ⊢
          omega)
        simp [unloadsOf, loadsOf, runOps_cons_unload, hr, hst] at h1 ⊢
        omega
      · have hpos : 1 ≤ st.clientViews := by
          have hb := hbal' [] ⟨rest, rfl⟩
          simpa [unloadsOf, loadsOf, runOps_cons_unload, runOps, hr] using hb
        have hv : (onUnload st sid).1.clientViews = st.clientViews - 1 := by
          rw [onUnload_true_views st sid hr]
          have he : st.clientViews + (2 ^ 32 - 1) =
              (st.clientViews - 1) + 1 * 2 ^ 32 := by omega
          rw [he, Nat.add_mul_mod_self_right]
          exact Nat.mod_eq_of_lt (by omega)
        have h1 := ih (onUnload st sid).1 (by rw [hv]; omega) (by
          intro p hp
          have hb := hbal' p hp
          simp [unloadsOf, loadsOf, runOps_cons_unload, hr, hv] at hb ⊢
          omega)
        simp [unloadsOf, loadsOf, runOps_cons_unload, hr, hv] at h1 ⊢
        omega

end ViewCount

/-- Claim C4 (amended): for every operation sequence of fewer than 2^32
operations in which, at every prefix, the completed `onUnload`s never
outnumber the successful `onLoad`s, `_clientViews` equals the number of
successful `onLoad`s minus the number of completed `onUnload`s (and so is
never negative); and when the engine reports a load failure, `onLoad`
returns null and leaves the state — in particular `_clientViews` —
unchanged. -/
theorem clientViews_balanced_invariant
    (ops : List LOOLKit.DocOp) (conns : List Nat)
    (hlen : ops.length < 2 ^ 32)
    (hbal : ∀ p, p <+: ops →
      LOOLKit.unloadsOf ⟨false, 0, conns⟩ p ≤ LOOLKit.loadsOf ⟨false, 0, conns⟩ p) :
    (((LOOLKit.runOps ⟨false, 0, conns⟩ ops).1.clientViews : Int) =
        (LOOLKit.loadsOf ⟨false, 0, conns⟩ ops : Int) -
          (LOOLKit.unloadsOf ⟨false, 0, conns⟩ ops : Int) ∧
      0 ≤ ((LOOLKit.runOps ⟨false, 0, conns⟩ ops).1.clientViews : Int)) ∧
    (∀ (st : LOOLKit.DocState) (sid : Nat), st.loKitDocument = false →
      LOOLKit.onLoad st sid false = (st, false)) := by
  constructor
  · have h := runOps_views_aux ops ⟨false, 0, conns⟩ (by simpa using hlen) (by
      intro p hp
      simpa using hbal p hp)
    simp only [Nat.zero_add] at h
    constructor
    · omega
    · omega
  · intro st sid h
    by_cases hc : sid ∈ st.connections
    · simp [LOOLKit.onLoad, hc, h]
    · simp [LOOLKit.onLoad, hc]

/-- Witness for C4: one successful load then one unload of session 7 leaves
zero views, the difference of one load and one unload. -/
theorem clientViews_balanced_invariant_witness :
    ((LOOLKit.runOps ⟨false, 0, [7]⟩
        [LOOLKit.DocOp.load 7 true, LOOLKit.DocOp.unload 7]).1.clientViews : Int) =
      (LOOLKit.loadsOf ⟨false, 0, [7]⟩
        [LOOLKit.DocOp.load 7 true, LOOLKit.DocOp.unload 7] : Int) -
      (LOOLKit.unloadsOf ⟨false, 0, [7]⟩
        [LOOLKit.DocOp.load 7 true, LOOLKit.DocOp.unload 7] : Int) :=
  ((clientViews_balanced_invariant
      [LOOLKit.DocOp.load 7 true, LOOLKit.DocOp.unload 7] [7]
      (by decide)
      (by
        intro p hp
        have hm : p ∈ ([LOOLKit.DocOp.load 7 true, LOOLKit.DocOp.unload 7]).inits :=
          (List.mem_inits _ _).mpr hp
        have : p = [] ∨ p = [LOOLKit.DocOp.load 7 true] ∨
            p = [LOOLKit.DocOp.load 7 true, LOOLKit.DocOp.unload 7] := by
          simpa [List.inits] using hm
        rcases this with rfl | rfl | rfl <;> decide)).1).1

section Combine

open MasterProcessSession

theorem combineLoop_done (cache : TileCache) (part w h tw th : Int) :
    ∀ (xs : List Int) (ys : List Int) (xsT ysT : List String)
      (sent : List Output) (fx fy : String),
      xsT.map stringToInteger = xs.map some →
      ysT.map stringToInteger = ys.map some →
      xs.length = ys.length →
      combineLoop cache part w h tw th xsT ysT sent fx fy =
        CombineLoopRes.done
          (sent ++ hitOutsOf cache part w h tw th (xs.zip ys))
          (List.foldl appendCSV fx
            ((missesOf cache part w h tw th (xs.zip ys)).map (fun p => toString p.1)))
          (List.foldl appendCSV fy
            ((missesOf cache part w h tw th (xs.zip ys)).map (fun p => toString p.2))) := by
  intro xs
  induction xs with
  | nil =>
    intro ys xsT ysT sent fx fy hx hy hlen
    have hxsT : xsT = [] := by
      cases xsT with
      | nil => rfl
      | cons a t => simp at hx
    have hys : ys = [] := by
      cases ys with
      | nil => rfl
      | cons b t => simp at hlen
    subst hys
    have hysT : ysT = [] := by
      cases ysT with
      | nil => rfl
      | cons a t => simp at hy
    subst hxsT
    subst hysT
    simp [combineLoop, hitOutsOf, missesOf]
  | cons x xr ih =>
    intro ys xsT ysT sent fx fy hx hy hlen
    cases xsT with
    | nil => simp at hx
    | cons xt xtr =>
      cases ys with
      | nil => simp at hlen
      | cons y yr =>
        cases ysT with
        | nil => simp at hy
        | cons yt ytr =>
          simp only [List.map_cons, List.cons.injEq] at hx hy
          obtain ⟨hx1, hx2⟩ := hx
          obtain ⟨hy1, hy2⟩ := hy
          have hlen' : xr.length = yr.length := by simpa using hlen
          rw [combineLoop, hx1, hy1]
          dsimp only
          rcases hl : cache.lookupTile ⟨part, w, h, x, y, tw, th⟩ with _ | bytes
          · dsimp only
            rw [ih yr xtr ytr sent
                (appendCSV fx (toString x)) (appendCSV fy (toString y)) hx2 hy2 hlen']
            have hk : combineKey part w h tw th (x, y) = ⟨part, w, h, x, y, tw, th⟩ := rfl
            simp [hitOutsOf, missesOf, hk, hl]
          · dsimp only
            rw [ih yr xtr ytr
                (sent ++ [Output.sendBinaryMsg (combineTileHeader part w h x y tw th) bytes])
                fx fy hx2 hy2 hlen']
            have hk : combineKey part w h tw th (x, y) = ⟨part, w, h, x, y, tw, th⟩ := rfl
            simp [hitOutsOf, missesOf, hk, hl]

theorem combineLoop_oor (cache : TileCache) (part w h tw th : Int) :
    ∀ (xsT : List String) (xs : List Int) (ytP : List String) (ysP : List Int)
      (c : String) (yrest : List String) (sent : List Output) (fx fy : String),
      xsT.map stringToInteger = xs.map some →
      ytP.map stringToInteger = ysP.map some →
      xsT.length = ytP.length →
      ∃ sent2,
        combineLoop cache part w h tw th xsT (ytP ++ c :: yrest) sent fx fy =
          CombineLoopRes.oor sent2 := by
  intro xsT
  induction xsT with
  | nil =>
    intro xs ytP ysP c yrest sent fx fy _ _ hlen
    have hyt : ytP = [] := by
      cases ytP with
      | nil => rfl
      | cons a t => simp at hlen
    subst hyt
    exact ⟨sent, rfl⟩
  | cons xt xtr ih =>
    intro xs ytP ysP c yrest sent fx fy hx hy hlen
    cases xs with
    | nil => simp at hx
    | cons x xr =>
      cases ytP with
      | nil => simp at hlen
      | cons yt ytr =>
        cases ysP with
        | nil => simp at hy
        | cons yy ysr =>
          simp only [List.map_cons, List.cons.injEq] at hx hy
          obtain ⟨hx1, hx2⟩ := hx
          obtain ⟨hy1, hy2⟩ := hy
          have hlen' : xtr.length = ytr.length := by simpa using hlen
          rw [List.cons_append, combineLoop, hx1, hy1]
          dsimp only
          rcases hl : cache.lookupTile ⟨part, w, h, x, yy, tw, th⟩ with _ | bytes
          · dsimp only
            exact ih xr ytr ysr c yrest sent
              (appendCSV fx (toString x)) (appendCSV fy (toString yy)) hx2 hy2 hlen'
          · dsimp only
            exact ih xr ytr ysr c yrest
              (sent ++ [Output.sendBinaryMsg (combineTileHeader part w h x yy tw th) bytes])
              fx fy hx2 hy2 hlen'

end Combine

/-- Claim C1: for every valid `tilecombine` request, each `(Xi, Yi)`
position is looked up in the tile cache independently; every hit is
answered directly as a tile response; the `tilecombine` forwarded to the
worker, when any, carries exactly the positions whose lookup missed, with
the forwarded `tileposx` and `tileposy` lists of equal length; and if
every position hits, nothing is forwarded to the worker. -/
theorem combine_cache_split_spec
    (cache : TileCache) (pg : Bool) (c0 t1 t2 t3 t4 t5 t6 t7 : String)
    (rest : List String) (part w h tw th : Int) (xsStr ysStr : String)
    (xs ys : List Int)
    (hp1 : getTokenInteger t1 "part" = some part)
    (hp2 : getTokenInteger t2 "width" = some w)
    (hp3 : getTokenInteger t3 "height" = some h)
    (hp4 : getTokenString t4 "tileposx" = some xsStr)
    (hp5 : getTokenString t5 "tileposy" = some ysStr)
    (hp6 : getTokenInteger t6 "tilewidth" = some tw)
    (hp7 : getTokenInteger t7 "tileheight" = some th)
    (hv : ¬(part < 0 ∨ w ≤ 0 ∨ h ≤ 0 ∨ tw ≤ 0 ∨ th ≤ 0 ∨
            xsStr.isEmpty = true ∨ ysStr.isEmpty = true))
    (hxs : (tokenizeComma xsStr).map stringToInteger = xs.map some)
    (hys : (tokenizeComma ysStr).map stringToInteger = ys.map some)
    (hlen : xs.length = ys.length) :
    MasterProcessSession.sendCombinedTiles cache pg
        (c0 :: t1 :: t2 :: t3 :: t4 :: t5 :: t6 :: t7 :: rest) =
      some (MasterProcessSession.hitOutsOf cache part w h tw th (xs.zip ys) ++
        (if (MasterProcessSession.missesOf cache part w h tw th (xs.zip ys)).isEmpty then []
         else
           (if pg then [Output.dispatchChildCall] else []) ++
           [Output.forward
             (MasterProcessSession.combineFwdMsg part w h
               (MasterProcessSession.commaJoin
                 ((MasterProcessSession.missesOf cache part w h tw th (xs.zip ys)).map
                   (fun p => toString p.1)))
               (MasterProcessSession.commaJoin
                 ((MasterProcessSession.missesOf cache part w h tw th (xs.zip ys)).map
                   (fun p => toString p.2)))
               tw th) none])) ∧
    ((MasterProcessSession.missesOf cache part w h tw th (xs.zip ys)).map
        (fun p => toString p.1)).length =
      ((MasterProcessSession.missesOf cache part w h tw th (xs.zip ys)).map
        (fun p => toString p.2)).length := by
  have hloop := combineLoop_done cache part w h tw th xs ys
    (tokenizeComma xsStr) (tokenizeComma ysStr) [] "" "" hxs hys hlen
  have hnex : ∀ s ∈ (MasterProcessSession.missesOf cache part w h tw th (xs.zip ys)).map
      (fun p => toString p.1), s.data ≠ [] := by
    intro s hs
    simp only [List.mem_map] at hs
    obtain ⟨p, _, rfl⟩ := hs
    exact intToString_data_ne _
  have hney : ∀ s ∈ (MasterProcessSession.missesOf cache part w h tw th (xs.zip ys)).map
      (fun p => toString p.2), s.data ≠ [] := by
    intro s hs
    simp only [List.mem_map] at hs
    obtain ⟨p, _, rfl⟩ := hs
    exact intToString_data_ne _
  have hfx := foldl_appendCSV_commaJoin _ hnex
  have hfy := foldl_appendCSV_commaJoin _ hney
  refine ⟨?_, by simp⟩
  rw [MasterProcessSession.sendCombinedTiles.eq_def]
  simp only [hp1, hp2, hp3, hp4, hp5, hp6, hp7]
  rw [if_neg hv]
  have hg : MasterProcessSession.combineGuardFails (tokenizeComma ysStr) = false := by
    simp [MasterProcessSession.combineGuardFails]
  rw [hg]
  simp only [Bool.false_eq_true, if_false]
  rw [hloop]
  simp only []
  rw [hfx, hfy]
  rcases hmiss : MasterProcessSession.missesOf cache part w h tw th (xs.zip ys) with _ | ⟨m, mr⟩
  · have he : ("" : String).isEmpty = true := rfl
    simp [hmiss, MasterProcessSession.commaJoin, he]
  · have hne1 : (MasterProcessSession.commaJoin
        (toString m.1 :: mr.map (fun p => toString p.1))).isEmpty = false := by
      apply strIsEmpty_false_of_data
      apply commaJoin_data_ne
      · simp
      · intro s hs
        simp only [List.mem_cons, List.mem_map] at hs
        rcases hs with rfl | ⟨p, _, rfl⟩
        · exact intToString_data_ne _
        · exact intToString_data_ne _
    simp [hmiss, hne1]

/-- Witness for C1: a combine of positions (1,1) and (9,9) against a cache
holding only the (1,1) tile serves one tile and forwards only (9,9). -/
theorem combine_cache_split_spec_witness :
    MasterProcessSession.sendCombinedTiles
        ((TileCache.create "u").saveTile ⟨0, 256, 256, 1, 1, 3840, 3840⟩ [5]) false
        ("tilecombine" :: "part=0" :: "width=256" :: "height=256" :: "tileposx=1,9" ::
         "tileposy=1,9" :: "tilewidth=3840" :: "tileheight=3840" :: []) =
      some (MasterProcessSession.hitOutsOf
              ((TileCache.create "u").saveTile ⟨0, 256, 256, 1, 1, 3840, 3840⟩ [5])
              0 256 256 3840 3840 ([(1 : Int), 9].zip [(1 : Int), 9]) ++
        (if (MasterProcessSession.missesOf
                ((TileCache.create "u").saveTile ⟨0, 256, 256, 1, 1, 3840, 3840⟩ [5])
                0 256 256 3840 3840 ([(1 : Int), 9].zip [(1 : Int), 9])).isEmpty then []
         else
           (if false then [Output.dispatchChildCall] else []) ++
           [Output.forward
             (MasterProcessSession.combineFwdMsg 0 256 256
               (MasterProcessSession.commaJoin
                 ((MasterProcessSession.missesOf
                     ((TileCache.create "u").saveTile ⟨0, 256, 256, 1, 1, 3840, 3840⟩ [5])
                     0 256 256 3840 3840 ([(1 : Int), 9].zip [(1 : Int), 9])).map
                   (fun p => toString p.1)))
               (MasterProcessSession.commaJoin
                 ((MasterProcessSession.missesOf
                     ((TileCache.create "u").saveTile ⟨0, 256, 256, 1, 1, 3840, 3840⟩ [5])
                     0 256 256 3840 3840 ([(1 : Int), 9].zip [(1 : Int), 9])).map
                   (fun p => toString p.2)))
               3840 3840) none])) ∧
    ((MasterProcessSession.missesOf
        ((TileCache.create "u").saveTile ⟨0, 256, 256, 1, 1, 3840, 3840⟩ [5])
        0 256 256 3840 3840 ([(1 : Int), 9].zip [(1 : Int), 9])).map
      (fun p => toString p.1)).length =
    ((MasterProcessSession.missesOf
        ((TileCache.create "u").saveTile ⟨0, 256, 256, 1, 1, 3840, 3840⟩ [5])
        0 256 256 3840 3840 ([(1 : Int), 9].zip [(1 : Int), 9])).map
      (fun p => toString p.2)).length :=
  combine_cache_split_spec
    ((TileCache.create "u").saveTile ⟨0, 256, 256, 1, 1, 3840, 3840⟩ [5]) false
    "tilecombine" "part=0" "width=256" "height=256" "tileposx=1,9" "tileposy=1,9"
    "tilewidth=3840" "tileheight=3840" [] 0 256 256 3840 3840 "1,9" "1,9"
    [(1 : Int), 9] [(1 : Int), 9]
    (by decide) (by decide) (by decide) (by decide) (by decide) (by decide) (by decide)
    (by decide) (by decide) (by decide) rfl

/-- Claim C9 (amended): the guard in `sendCombinedTiles` that is meant to
compare the tileposx and tileposy token counts compares the tileposy count
with itself and therefore never fails; and every `tilecombine` request
passing the parse and bounds checks whose tileposx token list is strictly
shorter than its tileposy token list — with all tileposx entries and the
corresponding tileposy entries parsing as integers — drives the
per-position loop to index the tileposx token list out of range (the
embedding aborts with `none`), reachably from the public interface. -/
theorem combine_guard_oor_spec :
    (∀ ys : List String, MasterProcessSession.combineGuardFails ys = false) ∧
    (∀ (cache : TileCache) (pg : Bool) (c0 t1 t2 t3 t4 t5 t6 t7 : String)
       (rest : List String) (part w h tw th : Int) (xsStr ysStr : String)
       (xs ysP : List Int) (ytP : List String) (c : String) (yrest : List String),
       getTokenInteger t1 "part" = some part →
       getTokenInteger t2 "width" = some w →
       getTokenInteger t3 "height" = some h →
       getTokenString t4 "tileposx" = some xsStr →
       getTokenString t5 "tileposy" = some ysStr →
       getTokenInteger t6 "tilewidth" = some tw →
       getTokenInteger t7 "tileheight" = some th →
       ¬(part < 0 ∨ w ≤ 0 ∨ h ≤ 0 ∨ tw ≤ 0 ∨ th ≤ 0 ∨
         xsStr.isEmpty = true ∨ ysStr.isEmpty = true) →
       (tokenizeComma xsStr).map stringToInteger = xs.map some →
       tokenizeComma ysStr = ytP ++ c :: yrest →
       ytP.map stringToInteger = ysP.map some →
       (tokenizeComma xsStr).length = ytP.length →
       MasterProcessSession.sendCombinedTiles cache pg
         (c0 :: t1 :: t2 :: t3 :: t4 :: t5 :: t6 :: t7 :: rest) = none) := by
  constructor
  · intro ys
    simp [MasterProcessSession.combineGuardFails]
  · intro cache pg c0 t1 t2 t3 t4 t5 t6 t7 rest part w h tw th xsStr ysStr
      xs ysP ytP c yrest hp1 hp2 hp3 hp4 hp5 hp6 hp7 hv hxs hysplit hyP hlen
    obtain ⟨sent2, hs⟩ := combineLoop_oor cache part w h tw th
      (tokenizeComma xsStr) xs ytP ysP c yrest [] "" "" hxs hyP hlen
    rw [MasterProcessSession.sendCombinedTiles.eq_def]
    simp only [hp1, hp2, hp3, hp4, hp5, hp6, hp7]
    rw [if_neg hv]
    have hg : MasterProcessSession.combineGuardFails (tokenizeComma ysStr) = false := by
      simp [MasterProcessSession.combineGuardFails]
    rw [hg]
    simp only [Bool.false_eq_true, if_false]
    rw [hysplit, hs]

/-- Witness for C9: the guard accepts mismatched token lists, and the
request `tileposx=3 tileposy=1,2` aborts with the out-of-range access. -/
theorem combine_guard_oor_spec_witness :
    MasterProcessSession.combineGuardFails ["a", "b"] = false ∧
    MasterProcessSession.sendCombinedTiles (TileCache.create "u") false
      ("tilecombine" :: "part=0" :: "width=256" :: "height=256" ::
       "tileposx=3" :: "tileposy=1,2" :: "tilewidth=3840" :: "tileheight=3840" :: []) =
      none :=
  ⟨combine_guard_oor_spec.1 ["a", "b"],
   combine_guard_oor_spec.2 (TileCache.create "u") false
     "tilecombine" "part=0" "width=256" "height=256" "tileposx=3" "tileposy=1,2"
     "tilewidth=3840" "tileheight=3840" [] 0 256 256 3840 3840 "3" "1,2"
     [(3 : Int)] [(1 : Int)] ["1"] "2" []
     (by decide) (by decide) (by decide) (by decide) (by decide) (by decide)
     (by decide) (by decide) (by decide) (by decide) (by decide) (by decide)⟩
